import Mathlib

/-!
Verification of the rendering and animation core of the light-vs-pixels
application (src/src/App.tsx).  The development shallowly embeds:

* the progressive-denoiser schedule of the effect at lines 97-153
  (step counter, blockSize, noiseScale, signalScale, terminal copy loop);
* the stipple transform of captureSubject at lines 198-211
  (luma, inclusion probability, jittered dots on a stride-3 grid);
* the controller state (the four React state variables of lines 13-18),
  the transitions performed by captureSubject (lines 213-252), the
  renderer-selection condition of the effect (lines 49-84), and the
  caption selection of the view (lines 311-320);
* a small trace semantics for the requestAnimationFrame loop handles,
  the effect cleanup (lines 159-161), and the asynchronous image-decode
  callback (lines 88-156), used to reason about loop cancellation.

Pixel buffers are embedded as functions from byte index to byte value.
The power schedules are idealised as exact reals, the real-function
reading their claims state.  The block-size arithmetic is modelled at
binary64 precision: every double occurring in it is an integer multiple
of 2 to the -70, embedded exactly as a scaled integer, with an explicit
round-to-nearest-ties-even step after each operation as IEEE-754
prescribes.  Randomness is an explicit stream of draws.
-/

set_option maxRecDepth 4000

namespace LightVsPixels

/-- The 64x64 working resolution of the right pane (noiseRes in App.tsx,
line 56). -/
def noiseRes : ℕ := 64

/-- Byte length of the 64x64 RGBA buffer (data.length for the ImageData
created at line 62: width * height * 4 bytes). -/
def bufLen : ℕ := noiseRes * noiseRes * 4

/-! ## Progressive denoiser schedule (lines 100-108) -/

/-- Noise amplitude schedule of the denoiser, line 107:
noiseScale = (1 - progress) ^ 1.2, idealised over the reals. -/
noncomputable def noiseScale (t : ℝ) : ℝ := (1 - t) ^ (1.2 : ℝ)

/-- Signal blend schedule of the denoiser, line 108:
signalScale = progress ^ 0.5, idealised over the reals. -/
noncomputable def signalScale (t : ℝ) : ℝ := t ^ (0.5 : ℝ)

/-!
Block-size schedule, lines 102-105, under binary64 arithmetic.

JavaScript numbers are IEEE-754 binary64 values: each arithmetic
operation rounds its exact result to 53 significant bits, to nearest
with ties to even.  Every binary64 value occurring in the block-size
computation is an integer multiple of 2 to the -70, so doubles are
embedded exactly as integers scaled by 2 to the 70, and one function
rnd70 models the rounding applied after each operation.  The embedding
is exact for zero and for magnitudes between 2 to the -18 and 2 to
the 6, which covers every value of this pipeline.  Exact rational
evaluation would not be faithful: at step 75 the double computation of
the product at line 104 yields 0.9999999999999998, whose floor is 0,
where exact arithmetic gives exactly 1.
-/

/-- Doubles are represented as value times 2 to this scale. -/
def fpScale : ℕ := 70

/-- Does 2 to the k weakly bound num/den from below?  (num, den
positive.) -/
def le2pow (k num den : ℤ) : Bool :=
  if 0 ≤ k then decide (den * 2 ^ k.toNat ≤ num)
  else decide (den ≤ num * 2 ^ (-k).toNat)

/-- Largest exponent k with 2 to the k at most num/den, searched
downward from 6 (every positive value rounded in this development lies
between 2 to the -80 and 2 to the 6). -/
def findExp : ℕ → ℤ → ℤ → ℤ
  | 0, _, _ => -80
  | fuel + 1, num, den =>
    let k : ℤ := (fuel : ℤ) - 80
    if le2pow k num den then k else findExp fuel num den

/-- Round a/b to the nearest integer, ties to even (b positive). -/
def rheDiv (a b : ℤ) : ℤ :=
  let f := Int.fdiv a b
  let r2 := 2 * (a - f * b)
  if r2 < b then f
  else if b < r2 then f + 1
  else if f % 2 = 0 then f else f + 1

/-- Nearest binary64 value to the positive rational num/den, as an
integer scaled by 2 to fpScale: the significand is the 53-bit
round-to-nearest-ties-even of the value scaled into the significand
range. -/
def rnd70Pos (num den : ℤ) : ℤ :=
  let k := findExp 87 num den
  let m : ℤ :=
    if 0 ≤ 52 - k then rheDiv (num * 2 ^ (52 - k).toNat) den
    else rheDiv num (den * 2 ^ (k - 52).toNat)
  if 0 ≤ k + 18 then m * 2 ^ (k + 18).toNat
  else Int.fdiv m (2 ^ (-(k + 18)).toNat)

/-- Binary64 rounding of the rational num/den (den positive), scaled by
2 to fpScale; zero and sign handled as in IEEE-754. -/
def rnd70 (num den : ℤ) : ℤ :=
  if num = 0 then 0
  else if 0 < num then rnd70Pos num den
  else -(rnd70Pos (-num) den)

/-- progress = step / totalSteps (line 102): the double quotient s/90,
scaled. -/
def progress70 (s : ℕ) : ℤ := rnd70 (s : ℤ) 90

/-- The double difference 1 - progress (line 104), scaled. -/
def oneMinus70 (s : ℕ) : ℤ := rnd70 (2 ^ fpScale - progress70 s) (2 ^ fpScale)

/-- The double product (1 - progress) * 6 (line 104), scaled. -/
def timesSix70 (s : ℕ) : ℤ := rnd70 (oneMinus70 s * 6) (2 ^ fpScale)

/-- Math.floor((1 - progress) * 6) (line 104): exact on doubles. -/
def blockExpF (s : ℕ) : ℤ := Int.fdiv (timesSix70 s) (2 ^ fpScale)

/-- Math.pow(2, e) of line 104, scaled: exact in binary64 for the
integer exponents that occur. -/
def blockRaw70 (s : ℕ) : ℤ :=
  if 0 ≤ blockExpF s then 2 ^ fpScale * 2 ^ (blockExpF s).toNat
  else Int.fdiv (2 ^ fpScale) (2 ^ (-(blockExpF s)).toNat)

/-- Math.min on numbers (no NaN in this pipeline). -/
def jsMin (a b : ℤ) : ℤ := if a ≤ b then a else b

/-- Math.max on numbers (no NaN in this pipeline). -/
def jsMax (a b : ℤ) : ℤ := if a ≤ b then b else a

/-- The clamp of line 105: Math.max(1, Math.min(32, blockSize)), on the
scaled doubles. -/
def blockSize70 (s : ℕ) : ℤ :=
  jsMax (2 ^ fpScale) (jsMin (32 * 2 ^ fpScale) (blockRaw70 s))

/-- The per-step block size as a rational number: the scaled integer
divided back by the scale. -/
def blockSizeQ (s : ℕ) : ℚ := (blockSize70 s : ℚ) / 2 ^ fpScale

/-- Closed form of the per-step block size, established against the
binary64 model by the bridge theorem below: 2 to the
floor((90-s)/15), except that at step 75 double rounding makes the
exponent 0 rather than 1. -/
def stepBlockF (s : ℕ) : ℕ := 2 ^ (if 75 ≤ s then 0 else (90 - s) / 15)

/-- Number of putImageData/drawImage render passes performed by the
denoise invocation whose step index is s: one for the regular frame
(lines 137-141), plus one more terminal render when the branch at line
143 fails, i.e. when s is the final step (lines 148-151). -/
def renderCount (s : ℕ) : ℕ := if s < 90 then 1 else 2

/-- The sequence of step indices executed by the denoise callback when it
is first entered with step counter c: the callback increments the
counter (line 101) and reschedules itself only while the incremented
counter is below totalSteps = 90 (line 143). -/
def denoiseRun (step : ℕ) : List ℕ :=
  if h : step < 90 then (step + 1) :: denoiseRun (step + 1) else []
termination_by 90 - step
decreasing_by simp_wf; omega

/-- The terminal copy loop of line 148:
for i in 0..data.length-1, data[i] = targetData[i].  Buffers are
functions from byte index to byte value; the loop is a left fold of
pointwise updates over the index range. -/
def finalCopy (targetData data : ℕ → ℕ) : ℕ → ℕ :=
  (List.range bufLen).foldl (fun d i => Function.update d i (targetData i)) data

/-! ## Stipple transform (lines 198-211) -/

/-- Luma of a sampled pixel, line 202:
(0.299 r + 0.587 g + 0.114 b) / 255. -/
noncomputable def lum (r g b : ℕ) : ℝ :=
  (0.299 * r + 0.587 * g + 0.114 * b) / 255

/-- Inclusion probability of a sampled pixel, line 203:
Math.pow(brightness, 2.5). -/
noncomputable def probability (brightness : ℝ) : ℝ := brightness ^ (2.5 : ℝ)

/-- Luma of the pixel sampled at (x, y) of a size-by-size RGBA buffer,
reading the three channel bytes at index (y * size + x) * 4 (lines
200-202). -/
noncomputable def brightnessAt (data : ℕ → ℕ) (size x y : ℕ) : ℝ :=
  lum (data ((y * size + x) * 4)) (data ((y * size + x) * 4 + 1))
    (data ((y * size + x) * 4 + 2))

/-- The coordinates visited by one of the stride-3 loops of lines
198-199: 0, 3, 6, ... below size. -/
def stride3 (size : ℕ) : List ℕ :=
  (List.range size).filter (fun v => v % 3 = 0)

/-- The sampled grid, outer loop over y, inner loop over x (lines
198-199). -/
def gridPts (size : ℕ) : List (ℕ × ℕ) :=
  (stride3 size).flatMap (fun y => (stride3 size).map (fun x => (x, y)))

open Classical in
/-- The dots painted by the sampling loop of lines 198-210, over an
explicit list of sample points and a stream of random draws indexed by
k: one draw decides inclusion (line 205); on inclusion two further
draws produce the jitter offsets (lines 206-207) and the dot is placed
at the jittered coordinate (line 208). -/
noncomputable def stippleAux (data : ℕ → ℕ) (size : ℕ) (rand : ℕ → ℝ) :
    List (ℕ × ℕ) → ℕ → List (ℝ × ℝ)
  | [], _ => []
  | (x, y) :: rest, k =>
    if rand k < probability (brightnessAt data size x y) then
      ((x : ℝ) + (rand (k + 1) - 0.5) * 2, (y : ℝ) + (rand (k + 2) - 0.5) * 2)
        :: stippleAux data size rand rest (k + 3)
    else
      stippleAux data size rand rest (k + 1)

/-- The full stipple pass: all dots painted over the stride-3 grid of a
size-by-size captured frame (the background having been filled solid
black at lines 191-192, the output frame is black wherever no dot is
painted). -/
noncomputable def stipple (data : ℕ → ℕ) (size : ℕ) (rand : ℕ → ℝ) :
    List (ℝ × ℝ) :=
  stippleAux data size rand (gridPts size) 0

/-! ## Controller state (lines 13-18, 213-252) -/

/-- Fallback concept text, line 228. -/
def fallbackConcept : String := "Unidentified object"

/-- Caption stored on failure of either external call, line 250. -/
def errorCaption : String := "Error: System failed to generate image."

/-- JavaScript whitespace test used by String.prototype.trim, restricted
to the whitespace characters that can occur here. -/
def isWs (c : Char) : Bool :=
  c = ' ' || c = '\t' || c = '\n' || c = '\r'

/-- Model of JavaScript String.prototype.trim: strip leading and trailing
whitespace. -/
def jsTrim (s : String) : String :=
  String.mk (((s.data.dropWhile isWs).reverse.dropWhile isWs).reverse)

/-- The four React state variables of lines 13-18 that drive the right
pane: hasCaptured, isAnalyzing, aiConcept, generatedImage. -/
structure AppState where
  hasCaptured : Bool
  isAnalyzing : Bool
  aiConcept : Option String
  generatedImage : Option String
deriving DecidableEq

/-- State before any capture: flags false, both nullable fields null. -/
def initState : AppState := ⟨false, false, none, none⟩

/-- The concept stored at lines 228-229:
visionResponse.text?.trim() || "Unidentified object".  A missing text
field, or a text that trims to the empty string, falls back. -/
def conceptOf (text : Option String) : String :=
  match text with
  | some s => if jsTrim s = "" then fallbackConcept else jsTrim s
  | none => fallbackConcept

/-- Outcomes of the capture gesture and of the two external calls, as
they reach the controller (captureSubject, lines 213-252). -/
inductive Ev
  | capture
  | conceptOk (text : Option String)
  | conceptFail
  | imageOk (genBase64 : Option String)
  | imageFail

/-- Controller transition for one outcome:
capture resets the four variables (lines 213-216); a concept response
stores the (possibly fallback) concept (lines 228-229); a successful
image response stores the data URL and clears the analyzing flag
(lines 246-247); a missing image payload throws (lines 242-244) and,
like either call failing, lands in the catch block which stores the
error caption and clears the analyzing flag (lines 248-252). -/
def applyEv (s : AppState) : Ev → AppState
  | .capture => ⟨true, true, none, none⟩
  | .conceptOk t => { s with aiConcept := some (conceptOf t) }
  | .conceptFail => { s with isAnalyzing := false, aiConcept := some errorCaption }
  | .imageOk d =>
    match d with
    | some g =>
      { s with isAnalyzing := false,
               generatedImage := some ("data:image/jpeg;base64," ++ g) }
    | none => { s with isAnalyzing := false, aiConcept := some errorCaption }
  | .imageFail => { s with isAnalyzing := false, aiConcept := some errorCaption }

/-- Fold a list of outcomes through the controller. -/
def run (s : AppState) (evs : List Ev) : AppState := evs.foldl applyEv s

/-- JavaScript truthiness of a nullable string. -/
def optTruthy : Option String → Bool
  | some s => s != ""
  | none => false

/-- Which renderer the effect of lines 39-157 activates for a given
state: nothing past the black fill when not captured (line 49); the
noise loop when analyzing, or when no generated image exists but a
concept does (line 65); the denoise path when a generated image exists
(line 84); otherwise nothing. -/
inductive Mode
  | blank
  | noise
  | denoisePath
  | idle
deriving DecidableEq

/-- Renderer selection, mirroring the branch structure of the effect. -/
def renderMode (s : AppState) : Mode :=
  if !s.hasCaptured then .blank
  else if s.isAnalyzing || (s.generatedImage.isNone && optTruthy s.aiConcept) then .noise
  else if s.generatedImage.isSome then .denoisePath
  else .idle

/-- What the caption area below the right pane shows (JSX lines
311-320): nothing before capture; the synthesizing indicator when no
generated image exists but a concept does; the extracting indicator
while analyzing; otherwise the stored concept text. -/
inductive Caption
  | empty
  | synthesizing
  | extracting
  | conceptText (t : String)
deriving DecidableEq

/-- Caption selection, mirroring the nested ternaries of lines 311-320. -/
def captionView (s : AppState) : Caption :=
  if !s.hasCaptured then .empty
  else if s.generatedImage.isNone && optTruthy s.aiConcept then .synthesizing
  else if s.isAnalyzing then .extracting
  else .conceptText (s.aiConcept.getD "")

/-! ## Animation-loop trace semantics (lines 39-162) -/

/-- A scheduled requestAnimationFrame callback: the noise loop body
(lines 67-81), or the denoise body carrying its current step counter
(lines 100-153). -/
inductive Cb
  | noiseCb
  | denoiseCb (step : ℕ)
deriving DecidableEq

/-- The whole animation subsystem: the controller state, a fresh-handle
counter, the animationRef cell (line 11), the currently scheduled
callbacks, and the tokens of Image objects whose onload has not yet
fired (lines 88-156). -/
structure Sys where
  app : AppState
  next : ℕ
  animRef : Option ℕ
  scheduled : List (ℕ × Cb)
  pending : List ℕ
  nextTok : ℕ
deriving DecidableEq

/-- Initial system: no loop scheduled, nothing pending. -/
def sysInit : Sys := ⟨initState, 0, none, [], [], 0⟩

/-- cancelAnimationFrame(animationRef.current): drop the callback whose
handle is stored in animationRef, if any (lines 86 and 160). -/
def cancelRef (sys : Sys) : Sys :=
  match sys.animRef with
  | some h => { sys with scheduled := sys.scheduled.filter (fun c => c.1 != h) }
  | none => sys

/-- animationRef.current = requestAnimationFrame(cb): schedule cb under a
fresh handle and store the handle (lines 80 and 144). -/
def schedule (sys : Sys) (cb : Cb) : Sys :=
  { sys with scheduled := sys.scheduled ++ [(sys.next, cb)],
             animRef := some sys.next,
             next := sys.next + 1 }

/-- One run of the effect after a state change: the cleanup of lines
159-161 cancels the handle held in animationRef, then the body runs;
the noise branch starts drawNoise which schedules itself (lines
67-82); the denoise branch cancels again (line 86) and creates an
Image whose onload is now pending (lines 88-156); the other branches
schedule nothing. -/
def effectRun (sys : Sys) : Sys :=
  let s1 := cancelRef sys
  match renderMode s1.app with
  | .noise => schedule s1 .noiseCb
  | .denoisePath =>
    let s2 := cancelRef s1
    { s2 with pending := s2.pending ++ [s2.nextTok], nextTok := s2.nextTok + 1 }
  | _ => s1

/-- Events of the animation subsystem: a controller outcome (followed by
a re-render and an effect run), an Image finishing its decode, or a
scheduled animation callback firing. -/
inductive SysEv
  | ext (e : Ev)
  | load (tok : ℕ)
  | tick (h : ℕ)

/-- System transition.  A controller outcome updates the state and
re-runs the effect.  A finished image decode runs the first denoise
invocation (line 154): the step counter moves to 1 and, 1 being below
totalSteps, the continuation is scheduled (lines 143-144).  A firing
noise callback draws and reschedules itself (line 80); a firing
denoise callback with counter c moves to c + 1 and reschedules only
while c + 1 is below totalSteps (lines 143-152). -/
def sysStep (sys : Sys) : SysEv → Sys
  | .ext e => effectRun { sys with app := applyEv sys.app e }
  | .load tok =>
    if tok ∈ sys.pending then
      schedule { sys with pending := sys.pending.filter (fun t => t != tok) }
        (.denoiseCb 1)
    else sys
  | .tick h =>
    match sys.scheduled.find? (fun c => c.1 == h) with
    | none => sys
    | some (_, cb) =>
      let base : Sys :=
        { sys with scheduled := sys.scheduled.filter (fun c => c.1 != h) }
      match cb with
      | .noiseCb => schedule base .noiseCb
      | .denoiseCb c =>
        if c + 1 < 90 then schedule base (.denoiseCb (c + 1)) else base

/-- Fold a list of system events from the initial system. -/
def sysRun (evs : List SysEv) : Sys := evs.foldl sysStep sysInit

/-! ## Theorems -/

/-- A left fold of pointwise updates writes target at every index of the
list and leaves other indices alone. -/
theorem foldl_update_get (target : ℕ → ℕ) :
    ∀ (l : List ℕ) (d : ℕ → ℕ) (i : ℕ),
      (l.foldl (fun f j => Function.update f j (target j)) d) i
        = if i ∈ l then target i else d i := by
  intro l
  induction l with
  | nil => intro d i; simp
  | cons a rest ih =>
    intro d i
    rw [List.foldl_cons, ih]
    by_cases hmem : i ∈ rest
    · simp [hmem]
    · by_cases hia : i = a
      · subst hia
        simp [hmem, Function.update_apply]
      · simp [hmem, hia, Function.update_apply]

/-- C1: after step 90 the denoiser emits the terminal frame produced by
the copy loop of line 148, and that frame agrees with the target
buffer at every byte index below the buffer length, alpha bytes
included; no noise term and no mid-gray bias enter the copy. -/
theorem terminal_frame_equals_target (targetData data : ℕ → ℕ) (i : ℕ)
    (hi : i < bufLen) :
    finalCopy targetData data i = targetData i := by
  rw [finalCopy, foldl_update_get]
  simp [List.mem_range.mpr hi]

theorem terminal_frame_equals_target_witness :
    (0 : ℕ) < bufLen ∧ finalCopy (fun _ => 7) (fun _ => 200) 0 = 7 :=
  ⟨by decide, terminal_frame_equals_target (fun _ => 7) (fun _ => 200) 0 (by decide)⟩

/-- The denoise callback entered with counter c executes exactly the step
indices c+1, ..., 90. -/
theorem denoiseRun_eq_range (k : ℕ) :
    ∀ c : ℕ, c + k = 90 → denoiseRun c = List.range' (c + 1) k := by
  induction k with
  | zero =>
    intro c hc
    rw [denoiseRun]
    have h : ¬ c < 90 := by omega
    rw [dif_neg h]
    rfl
  | succ k ih =>
    intro c hc
    rw [denoiseRun]
    have h : c < 90 := by omega
    rw [dif_pos h, ih (c + 1) (by omega)]
    rfl

/-- C5: started from counter 0, the denoiser executes exactly the 90 step
indices 1..90, performs 91 renders in total (one per step plus the
extra terminal render of the step-90 invocation), reaches a step-90
invocation that renders twice and schedules nothing, and the decode of
a fresh generated image schedules a denoise callback back at step 1. -/
theorem denoiser_exactly_90_steps :
    denoiseRun 0 = List.range' 1 90
    ∧ (denoiseRun 0).length = 90
    ∧ ((denoiseRun 0).map renderCount).sum = 91
    ∧ renderCount 90 = 2
    ∧ (∀ s ∈ denoiseRun 0, 1 ≤ s ∧ s ≤ 90)
    ∧ (sysStep ⟨⟨true, false, some fallbackConcept, some "u"⟩, 6, some 5,
          [(5, Cb.denoiseCb 89)], [], 1⟩ (.tick 5)).scheduled = []
    ∧ (sysRun [.ext .capture, .ext (.conceptOk none),
          .ext (.imageOk (some "IMG")), .load 0]).scheduled
        = [(2, Cb.denoiseCb 1)] := by
  have h0 : denoiseRun 0 = List.range' 1 90 := denoiseRun_eq_range 90 0 (by omega)
  refine ⟨h0, ?_, ?_, by decide, ?_, by decide, by decide⟩
  · rw [h0]; decide
  · rw [h0]; decide
  · rw [h0]; decide

/-- C6: over the reals, the noise schedule (1-t)^1.2 of line 107 is
strictly decreasing on [0,1] and the signal schedule t^0.5 of line 108
is strictly increasing on [0,1]; both stay within [0,1] there,
noiseScale vanishes at t = 1 and signalScale vanishes at t = 0.  The
discrete progress values s/90 for s = 1..90 lie in [0,1], so the same
facts order the per-step coefficients. -/
theorem schedule_monotone :
    (∀ t₁ t₂ : ℝ, 0 ≤ t₁ → t₁ < t₂ → t₂ ≤ 1 →
        noiseScale t₂ < noiseScale t₁ ∧ signalScale t₁ < signalScale t₂)
    ∧ (∀ t : ℝ, 0 ≤ t → t ≤ 1 →
        0 ≤ noiseScale t ∧ noiseScale t ≤ 1
          ∧ 0 ≤ signalScale t ∧ signalScale t ≤ 1)
    ∧ noiseScale 1 = 0 ∧ signalScale 0 = 0 := by
  refine ⟨?_, ?_, ?_, ?_⟩
  · intro t₁ t₂ h0 h12 h1
    constructor
    · exact Real.rpow_lt_rpow (by linarith) (by linarith) (by norm_num)
    · exact Real.rpow_lt_rpow h0 h12 (by norm_num)
  · intro t h0 h1
    exact ⟨Real.rpow_nonneg (by linarith) _,
      Real.rpow_le_one (by linarith) (by linarith) (by norm_num),
      Real.rpow_nonneg h0 _,
      Real.rpow_le_one h0 h1 (by norm_num)⟩
  · show ((1 : ℝ) - 1) ^ (1.2 : ℝ) = 0
    rw [sub_self, Real.zero_rpow (by norm_num)]
  · exact Real.zero_rpow (by norm_num)

theorem schedule_monotone_witness :
    noiseScale 1 < noiseScale 0 ∧ signalScale 0 < signalScale 1 :=
  schedule_monotone.1 0 1 (by norm_num) (by norm_num) (by norm_num)

/-- C2 counterexample: after a capture whose image generation fails, the
claim says no further frame is rendered, but the system still has the
noise callback scheduled (the effect re-run restarted drawNoise), and
the controller state selects the noise renderer. -/
theorem noise_survives_failure_cex :
    (sysRun [.ext .capture, .ext (.conceptOk none), .ext .imageFail]).scheduled
        = [(2, Cb.noiseCb)]
    ∧ (sysRun [.ext .capture, .ext (.conceptOk none), .ext .imageFail]).scheduled ≠ []
    ∧ renderMode (run initState [.capture, .conceptOk none, .imageFail]) = Mode.noise := by
  refine ⟨by decide, by decide, by decide⟩

/-- C2 amended: on external failure the effect cleanup cancels the
previously scheduled loop handle, but the effect re-run immediately
restarts the NoiseFieldRenderer, because the failure state (no
generated image, truthy error caption) satisfies the noise-branch
condition of line 65: exactly one noise callback is scheduled and
noise frames keep rendering in the failed state until a new capture. -/
theorem failure_restarts_noise_loop (t : Option String) :
    (sysRun [.ext .capture, .ext (.conceptOk t), .ext .imageFail]).scheduled
        = [(2, Cb.noiseCb)]
    ∧ (sysRun [.ext .capture, .ext (.conceptOk t), .ext .imageFail]).animRef = some 2
    ∧ renderMode (run initState [.capture, .conceptOk t, .imageFail]) = Mode.noise := by
  exact ⟨rfl, rfl, rfl⟩

/-- C3 counterexample: when image generation returns no data, the stored
caption string is "Error: System failed to generate image." which
differs from the claimed exact text, and the caption area does not
even surface it: the view shows the synthesizing indicator. -/
theorem error_caption_text_cex :
    (run initState [.capture, .conceptOk none, .imageOk none]).aiConcept
        = some "Error: System failed to generate image."
    ∧ "Error: System failed to generate image."
        ≠ "Error: system failed to generate image"
    ∧ captionView (run initState [.capture, .conceptOk none, .imageOk none])
        = Caption.synthesizing := by
  refine ⟨by decide, by decide, by decide⟩

/-- C3 amended: when image generation returns no data the controller
lands in the failed configuration: analyzing cleared, generated-image
unset, stored concept text exactly "Error: System failed to generate
image." (capital S, trailing period); no denoise loop starts --- the
renderer selected is the noise loop --- and the caption area shows the
synthesizing indicator rather than the stored error text. -/
theorem image_failure_reaches_failed_state (t : Option String) :
    (run initState [.capture, .conceptOk t, .imageOk none]).isAnalyzing = false
    ∧ (run initState [.capture, .conceptOk t, .imageOk none]).generatedImage = none
    ∧ (run initState [.capture, .conceptOk t, .imageOk none]).aiConcept
        = some errorCaption
    ∧ renderMode (run initState [.capture, .conceptOk t, .imageOk none]) = Mode.noise
    ∧ captionView (run initState [.capture, .conceptOk t, .imageOk none])
        = Caption.synthesizing := by
  exact ⟨rfl, rfl, rfl, rfl, rfl⟩

/-- C4: the claim (at most one active loop, cancel before start) is the
stated intent, but the code violates it: capture, successful concept
and image responses, then a second capture before the generated image
finishes decoding; the stale onload then fires and starts the denoise
loop next to the noise loop of the new capture.  Both callbacks are
scheduled at once, and after one frame tick of each, both loops are
still alive. -/
theorem stale_image_load_double_loop :
    (sysRun [.ext .capture, .ext (.conceptOk none), .ext (.imageOk (some "IMG")),
        .ext .capture, .load 0]).scheduled
      = [(2, Cb.noiseCb), (3, Cb.denoiseCb 1)]
    ∧ 2 ≤ (sysRun [.ext .capture, .ext (.conceptOk none),
        .ext (.imageOk (some "IMG")), .ext .capture, .load 0]).scheduled.length
    ∧ (sysRun [.ext .capture, .ext (.conceptOk none), .ext (.imageOk (some "IMG")),
        .ext .capture, .load 0, .tick 2, .tick 3]).scheduled
      = [(4, Cb.noiseCb), (5, Cb.denoiseCb 2)] := by
  refine ⟨by decide, by decide, by decide⟩

/-- C9: the fallback concept "Unidentified object" is stored exactly when
the concept response text is missing or trims to the empty string; a
non-empty trimmed response is stored as is; a failed concept call
stores the error caption, never the fallback; and after a full
successful run the caption area displays the stored concept text. -/
theorem fallback_concept_policy :
    (∀ s : String, jsTrim s = "" → conceptOf (some s) = fallbackConcept)
    ∧ (∀ s : String, jsTrim s ≠ "" → conceptOf (some s) = jsTrim s)
    ∧ conceptOf none = fallbackConcept
    ∧ (∀ st : AppState, (applyEv st .conceptFail).aiConcept = some errorCaption)
    ∧ errorCaption ≠ fallbackConcept
    ∧ (∀ t : Option String, ∀ d : String,
        captionView (run initState [.capture, .conceptOk t, .imageOk (some d)])
          = Caption.conceptText (conceptOf t)) := by
  refine ⟨?_, ?_, rfl, fun st => rfl, by decide, fun t d => rfl⟩
  · intro s h
    simp [conceptOf, h]
  · intro s h
    simp [conceptOf, h]

theorem fallback_concept_policy_witness :
    conceptOf (some "   ") = fallbackConcept
    ∧ conceptOf (some " red mug ") = jsTrim " red mug " :=
  ⟨fallback_concept_policy.1 "   " (by decide),
   fallback_concept_policy.2.1 " red mug " (by decide)⟩

/-- Bridge: over the 90 occurring steps the binary64 block size equals
the closed form stepBlockF, and the clamp of line 105 leaves the
computed value unchanged. -/
theorem blockSize70_eq :
    ∀ s ∈ Finset.Icc 1 90,
      blockSize70 s = (stepBlockF s : ℤ) * 2 ^ fpScale
      ∧ blockRaw70 s = blockSize70 s := by decide

/-- The rational reading of the bridge. -/
theorem blockSizeQ_eq (s : ℕ) (h1 : 1 ≤ s) (h2 : s ≤ 90) :
    blockSizeQ s = (stepBlockF s : ℚ) := by
  have hb := (blockSize70_eq s (Finset.mem_Icc.mpr ⟨h1, h2⟩)).1
  rw [blockSizeQ, hb]
  push_cast
  rw [mul_div_assoc, div_self (pow_ne_zero _ (by norm_num : (2 : ℚ) ≠ 0)),
    mul_one]

/-- The closed-form block size never increases with the step index. -/
theorem stepBlockF_antitone (s₁ s₂ : ℕ) (h : s₁ ≤ s₂) :
    stepBlockF s₂ ≤ stepBlockF s₁ := by
  rw [stepBlockF, stepBlockF]
  apply Nat.pow_le_pow_right (by norm_num)
  by_cases h1 : 75 ≤ s₁
  · rw [if_pos h1, if_pos (le_trans h1 h)]
  · by_cases h2 : 75 ≤ s₂
    · rw [if_neg h1, if_pos h2]
      exact Nat.zero_le _
    · rw [if_neg h1, if_neg h2]
      exact Nat.div_le_div_right (Nat.sub_le_sub_left h 90)

/-- The closed-form block size lies in [1, 32] at every occurring step. -/
theorem stepBlockF_bounds (s : ℕ) (h1 : 1 ≤ s) :
    1 ≤ stepBlockF s ∧ stepBlockF s ≤ 32 := by
  rw [stepBlockF]
  refine ⟨Nat.one_le_two_pow, ?_⟩
  calc 2 ^ (if 75 ≤ s then 0 else (90 - s) / 15) ≤ 2 ^ 5 :=
      Nat.pow_le_pow_right (by norm_num) (by split <;> omega)
    _ = 32 := rfl

/-- C7: over the steps the denoiser performs (progress t = s/90 for
s = 1..90), the block size computed by lines 104-105 in binary64
arithmetic is non-increasing as t increases, always lies in [1,32],
starts at 32 on the first step, and reaches 1 exactly on the final
sixth of the animation, from step 75 (t = 5/6) onward: double
rounding makes the floor at t = 5/6 evaluate to 0, one step earlier
than exact arithmetic would. -/
theorem blockSize_monotone_bounded :
    (∀ s₁ s₂ : ℕ, 1 ≤ s₁ → s₁ ≤ s₂ → s₂ ≤ 90 → blockSizeQ s₂ ≤ blockSizeQ s₁)
    ∧ (∀ s : ℕ, 1 ≤ s → s ≤ 90 → 1 ≤ blockSizeQ s ∧ blockSizeQ s ≤ 32)
    ∧ blockSizeQ 1 = 32
    ∧ (∀ s : ℕ, 1 ≤ s → s ≤ 90 → (blockSizeQ s = 1 ↔ 75 ≤ s)) := by
  refine ⟨?_, ?_, ?_, ?_⟩
  · intro s₁ s₂ h1 h12 h2
    rw [blockSizeQ_eq s₁ h1 (le_trans h12 h2),
      blockSizeQ_eq s₂ (le_trans h1 h12) h2]
    exact_mod_cast stepBlockF_antitone s₁ s₂ h12
  · intro s h1 h2
    rw [blockSizeQ_eq s h1 h2]
    obtain ⟨ha, hb⟩ := stepBlockF_bounds s h1
    exact ⟨by exact_mod_cast ha, by exact_mod_cast hb⟩
  · rw [blockSizeQ_eq 1 (by norm_num) (by norm_num)]
    norm_num [stepBlockF]
  · intro s h1 h2
    rw [blockSizeQ_eq s h1 h2,
      show ((1 : ℚ)) = ((1 : ℕ) : ℚ) from by norm_num, Nat.cast_inj,
      stepBlockF]
    have h2pow : ∀ e : ℕ, (2 : ℕ) ^ e = 1 ↔ e = 0 := by
      intro e
      constructor
      · intro hpow
        by_contra hne
        have hgt : 1 < 2 ^ e := Nat.one_lt_pow hne (by norm_num)
        omega
      · intro h0
        rw [h0, pow_zero]
    rw [h2pow]
    by_cases h75 : 75 ≤ s
    · rw [if_pos h75]
      simp [h75]
    · rw [if_neg h75]
      omega

theorem blockSize_monotone_bounded_witness :
    blockSizeQ 90 ≤ blockSizeQ 1 ∧ (1 : ℚ) ≤ blockSizeQ 45 :=
  ⟨blockSize_monotone_bounded.1 1 90 (by norm_num) (by norm_num) (by norm_num),
   (blockSize_monotone_bounded.2.1 45 (by norm_num) (by norm_num)).1⟩

/-- C10: for every step s in [1,90] the clamp of line 105 never changes
the value computed in binary64 arithmetic, which is one of 1, 2, 4, 8,
16, 32 (at step 75 double rounding yields 1 where exact arithmetic
would give 2), each dividing the 64-pixel grid side; consequently
every tile anchor of lines 114-116 stays inside the 64x64 grid and
the three target reads at tI, tI+1, tI+2 are in bounds. -/
theorem blockSize_step_values_safe (s : ℕ) (h1 : 1 ≤ s) (h2 : s ≤ 90) :
    blockSizeQ s = (stepBlockF s : ℚ)
    ∧ blockRaw70 s = blockSize70 s
    ∧ stepBlockF s ∈ ({1, 2, 4, 8, 16, 32} : Finset ℕ)
    ∧ stepBlockF s ∣ 64
    ∧ (∀ x y : ℕ, x < 64 → y < 64 →
        x - x % stepBlockF s < 64 ∧ y - y % stepBlockF s < 64
          ∧ ((y - y % stepBlockF s) * 64 + (x - x % stepBlockF s)) * 4 + 2
              < 64 * 64 * 4) := by
  refine ⟨blockSizeQ_eq s h1 h2,
    (blockSize70_eq s (Finset.mem_Icc.mpr ⟨h1, h2⟩)).2, ?_, ?_, ?_⟩
  · rw [stepBlockF]
    obtain ⟨e, hE⟩ : ∃ e, (if 75 ≤ s then 0 else (90 - s) / 15) = e := ⟨_, rfl⟩
    have he5 : e ≤ 5 := by
      rw [← hE]
      split <;> omega
    rw [hE]
    interval_cases e <;> decide
  · rw [stepBlockF]
    obtain ⟨e, hE⟩ : ∃ e, (if 75 ≤ s then 0 else (90 - s) / 15) = e := ⟨_, rfl⟩
    have he5 : e ≤ 5 := by
      rw [← hE]
      split <;> omega
    rw [hE]
    interval_cases e <;> decide
  · intro x y hx hy
    have h3 : ∀ tx ty : ℕ, tx < 64 → ty < 64 →
        (ty * 64 + tx) * 4 + 2 < 64 * 64 * 4 := by
      intro tx ty htx hty
      omega
    have htx : x - x % stepBlockF s < 64 := lt_of_le_of_lt (Nat.sub_le _ _) hx
    have hty : y - y % stepBlockF s < 64 := lt_of_le_of_lt (Nat.sub_le _ _) hy
    exact ⟨htx, hty, h3 _ _ htx hty⟩

theorem blockSize_step_values_safe_witness :
    ((1 : ℕ) ≤ 45 ∧ (45 : ℕ) ≤ 90)
    ∧ blockSizeQ 45 = (stepBlockF 45 : ℚ) :=
  ⟨⟨by norm_num, by norm_num⟩,
   (blockSize_step_values_safe 45 (by norm_num) (by norm_num)).1⟩

/-- Every dot painted over the sample list l sits within jitter distance
1 per axis of some sample point of l. -/
theorem stippleAux_dots_near_grid (data : ℕ → ℕ) (size : ℕ) (rand : ℕ → ℝ)
    (hr : ∀ n, 0 ≤ rand n ∧ rand n < 1) :
    ∀ (l : List (ℕ × ℕ)) (k : ℕ), ∀ d ∈ stippleAux data size rand l k,
      ∃ p ∈ l, |d.1 - (p.1 : ℝ)| ≤ 1 ∧ |d.2 - (p.2 : ℝ)| ≤ 1 := by
  intro l
  induction l with
  | nil =>
    intro k d hd
    simp [stippleAux] at hd
  | cons a rest ih =>
    obtain ⟨x, y⟩ := a
    intro k d hd
    by_cases hc : rand k < probability (brightnessAt data size x y)
    · rw [stippleAux, if_pos hc] at hd
      rcases List.mem_cons.mp hd with hd | hd
      · subst hd
        refine ⟨(x, y), List.mem_cons_self _ _, ?_, ?_⟩
        · show |((x : ℝ) + (rand (k + 1) - 0.5) * 2) - ((x : ℝ))| ≤ 1
          rw [show ((x : ℝ) + (rand (k + 1) - 0.5) * 2) - ((x : ℝ))
              = (rand (k + 1) - 0.5) * 2 by ring, abs_le]
          constructor <;> linarith [(hr (k + 1)).1, (hr (k + 1)).2]
        · show |((y : ℝ) + (rand (k + 2) - 0.5) * 2) - ((y : ℝ))| ≤ 1
          rw [show ((y : ℝ) + (rand (k + 2) - 0.5) * 2) - ((y : ℝ))
              = (rand (k + 2) - 0.5) * 2 by ring, abs_le]
          constructor <;> linarith [(hr (k + 2)).1, (hr (k + 2)).2]
      · obtain ⟨p, hp, hb⟩ := ih (k + 3) d hd
        exact ⟨p, List.mem_cons_of_mem _ hp, hb⟩
    · rw [stippleAux, if_neg hc] at hd
      obtain ⟨p, hp, hb⟩ := ih (k + 1) d hd
      exact ⟨p, List.mem_cons_of_mem _ hp, hb⟩

/-- Over an all-black buffer the inclusion probability is zero at every
sample, so no draw can pass the comparison of line 205 and no dot is
painted. -/
theorem stippleAux_black (data : ℕ → ℕ) (size : ℕ) (rand : ℕ → ℝ)
    (hr : ∀ n, 0 ≤ rand n) (hdata : ∀ i, data i = 0) :
    ∀ (l : List (ℕ × ℕ)) (k : ℕ), stippleAux data size rand l k = [] := by
  intro l
  induction l with
  | nil =>
    intro k
    simp [stippleAux]
  | cons a rest ih =>
    obtain ⟨x, y⟩ := a
    intro k
    have hb : brightnessAt data size x y = 0 := by
      simp [brightnessAt, lum, hdata]
    have hp : probability (brightnessAt data size x y) = 0 := by
      rw [hb, probability, Real.zero_rpow (by norm_num)]
    rw [stippleAux, if_neg (by rw [hp]; exact not_lt.mpr (hr k)), ih]

/-- C8: the inclusion probability brightness^2.5 of line 203 is monotone
non-decreasing on [0,1] with value 0 at brightness 0 and 1 at
brightness 1; every painted dot lies at a stride-3 sampled grid
coordinate offset by at most 1 px per axis (lines 206-208); and over
an all-black captured frame no dot is painted, so the output stays the
solid black fill of lines 191-192. -/
theorem stipple_transform_properties (rand : ℕ → ℝ)
    (hr : ∀ n, 0 ≤ rand n ∧ rand n < 1) :
    (∀ b₁ b₂ : ℝ, 0 ≤ b₁ → b₁ ≤ b₂ → probability b₁ ≤ probability b₂)
    ∧ probability 0 = 0 ∧ probability 1 = 1
    ∧ (∀ data size, ∀ d ∈ stipple data size rand,
        ∃ p ∈ gridPts size, |d.1 - (p.1 : ℝ)| ≤ 1 ∧ |d.2 - (p.2 : ℝ)| ≤ 1)
    ∧ (∀ data size, (∀ i, data i = 0) → stipple data size rand = []) := by
  refine ⟨?_, Real.zero_rpow (by norm_num), Real.one_rpow _, ?_, ?_⟩
  · intro b₁ b₂ h0 h12
    exact Real.rpow_le_rpow h0 h12 (by norm_num)
  · intro data size d hd
    exact stippleAux_dots_near_grid data size rand hr (gridPts size) 0 d hd
  · intro data size hdata
    exact stippleAux_black data size rand (fun n => (hr n).1) hdata (gridPts size) 0

theorem stipple_transform_properties_witness :
    stipple (fun _ => 0) 640 (fun _ => 1/2) = [] :=
  (stipple_transform_properties (fun _ => 1/2)
      (fun n => ⟨by norm_num, by norm_num⟩)).2.2.2.2 (fun _ => 0) 640 (fun i => rfl)

end LightVsPixels
